import Mathlib

/-!
Verification of the chunked-upload subsystem of the keiran.cc repository.

The chunk-upload HTTP handler (`src/app/api/upload-chunk/route.ts`) is
embedded shallowly: form-data requests become a structure, the JavaScript
`parseInt` used for validation becomes a Lean function, Node's `path.join`
becomes segment-list joining with `.`/`..` normalisation, and the handler's
filesystem side effects become an explicit list of filesystem operations
applied to an association-list filesystem.  The client-side size gate of
`src/components/file-upload.tsx` is embedded as well.  The assembly
coordinator described by the design document has no implementation in the
provided source; it is modelled from the specification where a claim needs
it, and this is stated in the relevant doc comments.
-/

/-- Byte strings are modelled as lists of naturals (each < 256 in intended
use; no claim depends on the bound). -/
abbrev Bytes := List Nat

/-- A decimal digit of a character, `none` when the character is not a
digit.  Used by the `parseInt` model. -/
def digitVal (c : Char) : Option Nat :=
  if c.isDigit then some (c.toNat - 48) else none

/-- The longest prefix of decimal digits of a character list, as digit
values.  Characters after the first non-digit are ignored, exactly as
JavaScript `parseInt` ignores trailing garbage. -/
def takeDigits : List Char → List Nat
  | [] => []
  | c :: cs =>
    match digitVal c with
    | some d => d :: takeDigits cs
    | none => []

/-- Decimal value of a digit list, most significant first. -/
def digitsToNat (ds : List Nat) : Nat :=
  ds.foldl (fun a d => a * 10 + d) 0

/-- Model of JavaScript `parseInt(s)` at the default radix 10 on the inputs
the handler can see: an optional sign followed by a longest run of leading
decimal digits; `none` models `NaN` (no leading digit at all).  Leading
whitespace and the hexadecimal `0x` prefix of the full ECMAScript function
are not modelled; no claim involves them. -/
def parseInt (s : String) : Option Int :=
  match s.toList with
  | [] => none
  | '-' :: rest =>
    if (takeDigits rest).isEmpty then none
    else some (-(digitsToNat (takeDigits rest) : Int))
  | '+' :: rest =>
    if (takeDigits rest).isEmpty then none
    else some (digitsToNat (takeDigits rest) : Int)
  | cs =>
    if (takeDigits cs).isEmpty then none
    else some (digitsToNat (takeDigits cs) : Int)

/-- Worker for `splitSegs`: `cur` holds the characters of the current
segment in reverse. -/
def splitSegsAux : List Char → List Char → List String
  | [], cur => if cur.isEmpty then [] else [String.mk cur.reverse]
  | c :: cs, cur =>
    if c = '/' then
      if cur.isEmpty then splitSegsAux cs []
      else String.mk cur.reverse :: splitSegsAux cs []
    else splitSegsAux cs (c :: cur)

/-- Split a path string on `/`, dropping empty segments, as Node's path
handling does for repeated separators. -/
def splitSegs (s : String) : List String :=
  splitSegsAux s.toList []

/-- One normalisation step of Node `path.join`: `.` is dropped and `..`
removes the previous segment (at the root it stays at the root, as POSIX
resolution does for absolute paths). -/
def normStep (acc : List String) (seg : String) : List String :=
  if seg = "." then acc
  else if seg = ".." then acc.dropLast
  else acc ++ [seg]

/-- Model of Node `path.join(base, s)` on an already-normalised absolute
base: append the segments of `s` and normalise `.` and `..`. -/
def joinPath (base : List String) (s : String) : List String :=
  (base ++ splitSegs s).foldl normStep []

/-- A filesystem operation performed by the handler.  `rename` never occurs
in the handler's operation list; the constructor exists so that the absence
of a write-then-rename pattern is expressible. -/
inductive FsOp where
  | mkdir : List String → FsOp
  | writeFile : List String → Bytes → FsOp
  | rename : List String → List String → FsOp
deriving DecidableEq, Repr

/-- Whether an operation is a rename. -/
def FsOp.isRename : FsOp → Bool
  | .rename _ _ => true
  | _ => false

/-- The multipart form-data of one chunk-upload request, after the
handler's own field extraction: `file` is the blob (`none` when the field
is absent), and the three string fields are
`String(formData.get(name) || '')`, so an absent field is the empty
string. -/
structure ChunkRequest where
  file : Option Bytes
  chunkIndex : String
  totalChunks : String
  filename : String
deriving DecidableEq, Repr

/-- The handler's HTTP response: `badRequest` is a 400 with a plain-text
body, `ok` is the JSON body with boolean `success` and string `message`,
`serverError` is the 500 produced by the catch block. -/
inductive HandlerResult where
  | badRequest : String → HandlerResult
  | ok : Bool → String → HandlerResult
  | serverError : HandlerResult
deriving DecidableEq, Repr

/-- HTTP status code of a response. -/
def HandlerResult.status : HandlerResult → Nat
  | .badRequest _ => 400
  | .ok _ _ => 200
  | .serverError => 500

/-- The upload directory of the handler:
`path.join(process.cwd(), 'public', 'uploads', 'chunks', filename)` with
the client-supplied filename joined in unsanitised. -/
def uploadDir (cwd : List String) (filename : String) : List String :=
  joinPath (cwd ++ ["public", "uploads", "chunks"]) filename

/-- The file name used for a chunk within the upload directory:
the template literal `chunk-` + chunkIndex, with the raw index string
embedded in the name. -/
def chunkFileName (chunkIndex : String) : String :=
  "chunk-" ++ chunkIndex

/-- The chunk file path:
`path.join(uploadDir, 'chunk-' + chunkIndex)`. -/
def chunkPath (cwd : List String) (filename chunkIndex : String) : List String :=
  joinPath (uploadDir cwd filename) (chunkFileName chunkIndex)

/-- The root directory under which chunks are intended to live. -/
def chunksRoot (cwd : List String) : List String :=
  cwd ++ ["public", "uploads", "chunks"]

/-- Outcome of one request: the HTTP response plus the list of filesystem
operations actually performed. -/
structure PostOutcome where
  response : HandlerResult
  fsOps : List FsOp
deriving DecidableEq, Repr

/-- Shallow embedding of the `POST` handler of
`src/app/api/upload-chunk/route.ts`.  `fsOk` models whether the filesystem
write succeeds; when it fails the catch block yields the 500 response and
only the directory creation has happened.  The handler, in order: rejects
with 400 `Missing required form data` when the blob is absent or any of
the three string fields is empty; rejects with 400 `Invalid chunk index`
when `parseInt(chunkIndex)` is `NaN`; otherwise creates the upload
directory and writes the blob to the chunk path, answering with the
success JSON.  No range check against `totalChunks`, no session state, no
size ceiling, no temporary file. -/
def POST (cwd : List String) (req : ChunkRequest) (fsOk : Bool) : PostOutcome :=
  match req.file with
  | none => ⟨.badRequest "Missing required form data", []⟩
  | some chunk =>
    if req.chunkIndex = "" ∨ req.totalChunks = "" ∨ req.filename = "" then
      ⟨.badRequest "Missing required form data", []⟩
    else
      match parseInt req.chunkIndex with
      | none => ⟨.badRequest "Invalid chunk index", []⟩
      | some _ =>
        let dir := uploadDir cwd req.filename
        let p := chunkPath cwd req.filename req.chunkIndex
        if fsOk then
          ⟨.ok true ("Chunk " ++ req.chunkIndex ++ " of " ++ req.totalChunks
              ++ " uploaded successfully"),
            [.mkdir dir, .writeFile p chunk]⟩
        else
          ⟨.serverError, [.mkdir dir]⟩

/-- The string-field conditions under which the handler reaches the write:
the three string fields are non-empty and `parseInt(chunkIndex)` is not
`NaN`.  This abbreviates the handler's own checks; it imposes nothing
beyond them. -/
def validRequest (req : ChunkRequest) : Prop :=
  req.chunkIndex ≠ "" ∧ req.totalChunks ≠ "" ∧ req.filename ≠ ""
    ∧ (parseInt req.chunkIndex).isSome

instance (req : ChunkRequest) : Decidable (validRequest req) := by
  unfold validRequest
  infer_instance

/-- `MAX_FILE_SIZE` of `src/components/file-upload.tsx`: 1 GiB in bytes. -/
def MAX_FILE_SIZE : Nat := 1024 * 1024 * 1024

/-- Result of the client-side `onDrop` callback of
`src/components/file-upload.tsx` for a selected file of the given size:
`none` means the file was rejected with the `File too large` toast,
`some size` means it became the staged file. -/
def onDrop (size : Nat) : Option Nat :=
  if size > MAX_FILE_SIZE then none else some size

/-- An association-list filesystem: path → contents, distinct keys. -/
abbrev FileSystem := List (List String × Bytes)

/-- Look up the contents stored at a path. -/
def fsLookup : FileSystem → List String → Option Bytes
  | [], _ => none
  | e :: rest, p => if e.1 = p then some e.2 else fsLookup rest p

/-- Apply one filesystem operation.  `writeFile` overwrites whatever was at
the path (the semantics of `fs.writeFile`); `mkdir` does not change file
contents; `rename` moves the contents at the source path to the
destination path. -/
def applyOp (fs : FileSystem) : FsOp → FileSystem
  | .mkdir _ => fs
  | .writeFile p b => (p, b) :: fs.filter (fun e => e.1 ≠ p)
  | .rename src dst =>
    match fsLookup fs src with
    | none => fs
    | some b =>
      (dst, b) :: (fs.filter (fun e => e.1 ≠ src ∧ e.1 ≠ dst))

/-- Apply a list of filesystem operations in order. -/
def applyOps (fs : FileSystem) (ops : List FsOp) : FileSystem :=
  ops.foldl applyOp fs

/-- Modelled from the spec: the source contains no `UploadSession`,
`AssemblyCoordinator` or finalize/merge code (the design document states
the finalize/merge path is missing), so the per-upload chunk buffer is
modelled as a map from chunk index to the currently stored bytes. -/
abbrev ChunkMap := Nat → Option Bytes

/-- Modelled from the spec: the empty chunk buffer of a fresh upload. -/
def emptyChunks : ChunkMap := fun _ => none

/-- Modelled from the spec: `ChunkStore.write` for one arriving chunk —
the bytes are stored under the chunk's index, overwriting any previous
bytes at that index (the store's documented overwrite policy). -/
def recvChunk (m : ChunkMap) (e : Nat × Bytes) : ChunkMap :=
  fun j => if j = e.1 then some e.2 else m j

/-- Modelled from the spec: the chunk buffer after a whole arrival
sequence, chunks applied in arrival order. -/
def recvAll (L : List (Nat × Bytes)) : ChunkMap :=
  L.foldl recvChunk emptyChunks

/-- Modelled from the spec: the stream-read of `AssemblyCoordinator`
over a list of indices — each chunk's bytes are appended in turn, and a
missing chunk aborts the merge. -/
def assembleList (m : ChunkMap) : List Nat → Option Bytes
  | [] => some []
  | i :: rest =>
    match m i, assembleList m rest with
    | some b, some tail => some (b ++ tail)
    | _, _ => none

/-- Modelled from the spec: `AssemblyCoordinator.assemble` — read chunks
`0..total-1` in strict index order and concatenate them into the Final
Artifact; `none` models `AssemblyFailure` on a missing chunk. -/
def assemble (total : Nat) (m : ChunkMap) : Option Bytes :=
  assembleList m (List.range total)

example : parseInt "7" = some 7 := by decide
example : parseInt "07" = some 7 := by decide
example : parseInt "-3" = some (-3) := by decide
example : parseInt "7abc" = some 7 := by decide
example : parseInt "abc" = none := by decide
example : parseInt "" = none := by decide
example : joinPath ["a", "b"] "../c" = ["a", "c"] := by decide
example :
    chunkPath ["srv"] "f" "0" = ["srv", "public", "uploads", "chunks", "f", "chunk-0"] := by
  decide

lemma foldl_recvChunk_lookup (L : List (Nat × Bytes)) (m : ChunkMap) (i : Nat)
    (b : Bytes) (h : ∀ e ∈ L, e.1 = i → e.2 = b) :
    L.foldl recvChunk m i =
      if L.any (fun e => e.1 == i) then some b else m i := by
  induction L generalizing m with
  | nil => simp
  | cons e rest ih =>
    simp only [List.foldl_cons, List.any_cons]
    rw [ih (recvChunk m e) (fun x hx => h x (List.mem_cons_of_mem e hx))]
    by_cases hk : e.1 = i
    · have hb : e.2 = b := h e (List.mem_cons_self e rest) hk
      by_cases hr : rest.any (fun x => x.1 == i)
      · simp [hr, hk]
      · simp [hr, hk, recvChunk, hb]
    · by_cases hr : rest.any (fun x => x.1 == i)
      · simp [hr, hk]
      · simp [hr, hk, recvChunk, Ne.symm hk]

lemma recvAll_lookup (L : List (Nat × Bytes)) (i : Nat) (b : Bytes)
    (hall : ∀ e ∈ L, e.1 = i → e.2 = b) (hmem : (i, b) ∈ L) :
    recvAll L i = some b := by
  unfold recvAll
  rw [foldl_recvChunk_lookup L emptyChunks i b hall]
  have hany : L.any (fun e => e.1 == i) = true :=
    List.any_eq_true.mpr ⟨(i, b), hmem, by simp⟩
  simp [hany]

lemma assembleList_eq_concat (m : ChunkMap) (p : Nat → Bytes) (l : List Nat)
    (h : ∀ i ∈ l, m i = some (p i)) :
    assembleList m l = some ((l.map p).flatten) := by
  induction l with
  | nil => rfl
  | cons i rest ih =>
    have hi : m i = some (p i) := h i (by simp)
    rw [assembleList, hi, ih (fun j hj => h j (by simp [hj]))]
    simp

/-- C1: if the chunk uploads of an upload are exactly the chunks
`(i, payload i)` for `i ∈ [0, totalChunks)`, arriving in any order, then
assembly produces the concatenation of the payloads in index order — no
reordering, no gaps, no duplication. -/
theorem assemble_is_ordered_concat (total : Nat) (p : Nat → Bytes)
    (L : List (Nat × Bytes))
    (hperm : L.Perm ((List.range total).map (fun i => (i, p i)))) :
    assemble total (recvAll L) = some (((List.range total).map p).flatten) := by
  have hall : ∀ e ∈ L, e.2 = p e.1 := by
    intro e he
    have hmem := hperm.mem_iff.mp he
    simp only [List.mem_map, List.mem_range] at hmem
    obtain ⟨i, _, rfl⟩ := hmem
    rfl
  have hcov : ∀ i, i < total → (i, p i) ∈ L := by
    intro i hi
    exact hperm.mem_iff.mpr (List.mem_map.mpr ⟨i, List.mem_range.mpr hi, rfl⟩)
  unfold assemble
  apply assembleList_eq_concat
  intro i hi
  exact recvAll_lookup L i (p i)
    (fun e he hk => by rw [hall e he, hk]) (hcov i (List.mem_range.mp hi))

/-- Witness for C1: chunks 1 then 0 arrive out of order; the artifact is
`p 0 ++ p 1`. -/
theorem assemble_is_ordered_concat_witness :
    ([((1 : Nat), ([10, 11] : Bytes)), (0, [7])].Perm
        ((List.range 2).map (fun i => (i, [([7] : Bytes), [10, 11]].getD i []))))
    ∧ assemble 2 (recvAll [((1 : Nat), ([10, 11] : Bytes)), (0, [7])])
        = some (((List.range 2).map
            (fun i => [([7] : Bytes), [10, 11]].getD i [])).flatten) := by
  refine ⟨by decide, ?_⟩
  exact assemble_is_ordered_concat 2
    (fun i => [([7] : Bytes), [10, 11]].getD i [])
    [((1 : Nat), ([10, 11] : Bytes)), (0, [7])] (by decide)

lemma POST_valid_eq (cwd : List String) (req : ChunkRequest) (b : Bytes)
    (hb : req.file = some b) (hv : validRequest req) :
    POST cwd req true
      = ⟨.ok true ("Chunk " ++ req.chunkIndex ++ " of " ++ req.totalChunks
            ++ " uploaded successfully"),
          [.mkdir (uploadDir cwd req.filename),
           .writeFile (chunkPath cwd req.filename req.chunkIndex) b]⟩ := by
  obtain ⟨h1, h2, h3, h4⟩ := hv
  obtain ⟨k, hk⟩ := Option.isSome_iff_exists.mp h4
  simp [POST, hb, h1, h2, h3, hk]

lemma POST_valid_fsFail (cwd : List String) (req : ChunkRequest) (b : Bytes)
    (hb : req.file = some b) (hv : validRequest req) :
    POST cwd req false
      = ⟨.serverError, [.mkdir (uploadDir cwd req.filename)]⟩ := by
  obtain ⟨h1, h2, h3, h4⟩ := hv
  obtain ⟨k, hk⟩ := Option.isSome_iff_exists.mp h4
  simp [POST, hb, h1, h2, h3, hk]

lemma POST_missing_field (cwd : List String) (req : ChunkRequest) (fsOk : Bool)
    (h : req.file = none ∨ req.chunkIndex = "" ∨ req.totalChunks = ""
      ∨ req.filename = "") :
    POST cwd req fsOk = ⟨.badRequest "Missing required form data", []⟩ := by
  rcases h with h | h | h | h
  · simp [POST, h]
  all_goals
    cases hf : req.file with
    | none => simp [POST, hf]
    | some c => simp [POST, hf, h]

/-- C6: a request missing any of the four required form fields gets HTTP
400 and causes no filesystem operation; an accepted request gets the JSON
body with boolean `success = true` and a string `message`; a storage
failure on a request that passed validation yields HTTP 500. -/
theorem post_response_contract :
    (∀ (cwd : List String) (req : ChunkRequest) (fsOk : Bool),
        (req.file = none ∨ req.chunkIndex = "" ∨ req.totalChunks = ""
          ∨ req.filename = "") →
        (POST cwd req fsOk).response.status = 400
          ∧ (POST cwd req fsOk).fsOps = [])
    ∧ (∀ (cwd : List String) (req : ChunkRequest) (b : Bytes),
        req.file = some b → validRequest req →
        (POST cwd req true).response
          = .ok true ("Chunk " ++ req.chunkIndex ++ " of " ++ req.totalChunks
              ++ " uploaded successfully"))
    ∧ (∀ (cwd : List String) (req : ChunkRequest) (b : Bytes),
        req.file = some b → validRequest req →
        (POST cwd req false).response.status = 500) := by
  refine ⟨?_, ?_, ?_⟩
  · intro cwd req fsOk h
    rw [POST_missing_field cwd req fsOk h]
    exact ⟨rfl, rfl⟩
  · intro cwd req b hb hv
    rw [POST_valid_eq cwd req b hb hv]
  · intro cwd req b hb hv
    rw [POST_valid_fsFail cwd req b hb hv]
    rfl

/-- Witness for C6 at concrete requests. -/
theorem post_response_contract_witness :
    ((POST [] ⟨none, "0", "1", "f"⟩ true).response.status = 400
      ∧ (POST [] ⟨none, "0", "1", "f"⟩ true).fsOps = [])
    ∧ (POST [] ⟨some [1], "0", "1", "f"⟩ true).response
        = .ok true ("Chunk " ++ "0" ++ " of " ++ "1" ++ " uploaded successfully")
    ∧ (POST [] ⟨some [1], "0", "1", "f"⟩ false).response.status = 500 :=
  ⟨post_response_contract.1 [] ⟨none, "0", "1", "f"⟩ true (Or.inl rfl),
   post_response_contract.2.1 [] ⟨some [1], "0", "1", "f"⟩ [1] rfl (by decide),
   post_response_contract.2.2 [] ⟨some [1], "0", "1", "f"⟩ [1] rfl (by decide)⟩

/-- C2 counterexample: a request declaring chunk index 5 with totalChunks 3
is out of range `[0, 3)`, yet the handler accepts it with status 200 and
persists the chunk (the operation list contains a write). -/
theorem post_out_of_range_index_accepted :
    (POST ["srv"] ⟨some [1], "5", "3", "f"⟩ true).response.status = 200
    ∧ (POST ["srv"] ⟨some [1], "5", "3", "f"⟩ true).fsOps
        = [.mkdir (uploadDir ["srv"] "f"),
           .writeFile (chunkPath ["srv"] "f" "5") [1]] := by
  constructor
  · rfl
  · rfl

/-- C2 amended: the handler's only index validation is that
`parseInt(chunkIndex)` is not `NaN` — a `NaN` index gets HTTP 400 without
persisting; every parseable index, including negative values and values at
or beyond `totalChunks`, is accepted and persisted, with no range check
against `[0, totalChunks)`. -/
theorem post_index_validation_parse_only :
    (∀ (cwd : List String) (req : ChunkRequest) (b : Bytes) (fsOk : Bool),
        req.file = some b → req.chunkIndex ≠ "" → req.totalChunks ≠ "" →
        req.filename ≠ "" → parseInt req.chunkIndex = none →
        POST cwd req fsOk = ⟨.badRequest "Invalid chunk index", []⟩)
    ∧ (∀ (cwd : List String) (req : ChunkRequest) (b : Bytes),
        req.file = some b → validRequest req →
        (POST cwd req true).response.status = 200
        ∧ (POST cwd req true).fsOps
            = [.mkdir (uploadDir cwd req.filename),
               .writeFile (chunkPath cwd req.filename req.chunkIndex) b]) := by
  constructor
  · intro cwd req b fsOk hb h1 h2 h3 hp
    simp [POST, hb, h1, h2, h3, hp]
  · intro cwd req b hb hv
    rw [POST_valid_eq cwd req b hb hv]
    exact ⟨rfl, rfl⟩

/-- Witness for the amended C2: a `NaN` index is rejected, a negative
index is accepted. -/
theorem post_index_validation_parse_only_witness :
    POST [] ⟨some [1], "abc", "3", "f"⟩ true
      = ⟨.badRequest "Invalid chunk index", []⟩
    ∧ ((POST [] ⟨some [1], "-2", "3", "f"⟩ true).response.status = 200
      ∧ (POST [] ⟨some [1], "-2", "3", "f"⟩ true).fsOps
          = [.mkdir (uploadDir [] "f"),
             .writeFile (chunkPath [] "f" "-2") [1]]) :=
  ⟨post_index_validation_parse_only.1 [] ⟨some [1], "abc", "3", "f"⟩ [1] true
      rfl (by decide) (by decide) (by decide) (by decide),
   post_index_validation_parse_only.2 [] ⟨some [1], "-2", "3", "f"⟩ [1]
      rfl (by decide)⟩

/-- C10: the stored chunk file name embeds the raw `chunkIndex` string:
`parseInt` accepts negative values and strings with trailing non-digits,
and the handler accepts such requests; index strings `7` and `07` parse to
the same integer yet the handler writes them to two distinct chunk
paths. -/
theorem chunk_name_embeds_raw_index_string :
    parseInt "-3" = some (-3)
    ∧ (POST ["srv"] ⟨some [1], "-3", "3", "f"⟩ true).response.status = 200
    ∧ parseInt "7abc" = some 7
    ∧ (POST ["srv"] ⟨some [1], "7abc", "9", "f"⟩ true).response.status = 200
    ∧ parseInt "07" = parseInt "7"
    ∧ chunkPath ["srv"] "f" "07" ≠ chunkPath ["srv"] "f" "7"
    ∧ (POST ["srv"] ⟨some [1], "07", "9", "f"⟩ true).fsOps
        = [.mkdir (uploadDir ["srv"] "f"),
           .writeFile (chunkPath ["srv"] "f" "07") [1]]
    ∧ (POST ["srv"] ⟨some [1], "7", "9", "f"⟩ true).fsOps
        = [.mkdir (uploadDir ["srv"] "f"),
           .writeFile (chunkPath ["srv"] "f" "7") [1]] := by
  refine ⟨by decide, rfl, by decide, rfl, by decide, by decide, rfl, rfl⟩

/-- C9: the client-supplied filename is joined into the storage path
without sanitisation: there is a filename containing parent-directory
segments for which the handler accepts the request and the resolved chunk
write path lies outside the `public/uploads/chunks` directory. -/
theorem filename_path_traversal :
    ∃ fname : String,
      (POST ["srv", "app"] ⟨some [1], "0", "1", fname⟩ true).fsOps
          = [.mkdir (uploadDir ["srv", "app"] fname),
             .writeFile (chunkPath ["srv", "app"] fname "0") [1]]
      ∧ (POST ["srv", "app"] ⟨some [1], "0", "1", fname⟩ true).response.status = 200
      ∧ (chunksRoot ["srv", "app"]).isPrefixOf
            (chunkPath ["srv", "app"] fname "0") = false :=
  ⟨"../../../passwd", rfl, rfl, by decide⟩

/-- C7 counterexample: chunk 0 is uploaded declaring `totalChunks = 3`;
a later chunk for the same upload identifier declaring `totalChunks = 5`
is accepted with a success response, not rejected with
`InconsistentTotalChunks` — the handler holds no session state, so the
second outcome is a fixed function of the second request alone. -/
theorem conflicting_totalChunks_accepted :
    (POST [] ⟨some [1], "0", "3", "f"⟩ true).response
      = .ok true ("Chunk " ++ "0" ++ " of " ++ "3" ++ " uploaded successfully")
    ∧ (POST [] ⟨some [2], "1", "5", "f"⟩ true).response
      = .ok true ("Chunk " ++ "1" ++ " of " ++ "5" ++ " uploaded successfully") :=
  ⟨rfl, rfl⟩

/-- C7 amended: the handler keeps no upload-session state and never fixes
or compares `totalChunks` across requests: any two valid chunk uploads for
the same identifier that declare different `totalChunks` values are both
accepted, the declared total appearing only in the response message. -/
theorem post_never_rejects_conflicting_totalChunks
    (cwd : List String) (f i1 i2 t1 t2 : String) (b1 b2 : Bytes)
    (hne : t1 ≠ t2)
    (hv1 : validRequest ⟨some b1, i1, t1, f⟩)
    (hv2 : validRequest ⟨some b2, i2, t2, f⟩) :
    (POST cwd ⟨some b1, i1, t1, f⟩ true).response
      = .ok true ("Chunk " ++ i1 ++ " of " ++ t1 ++ " uploaded successfully")
    ∧ (POST cwd ⟨some b2, i2, t2, f⟩ true).response
      = .ok true ("Chunk " ++ i2 ++ " of " ++ t2 ++ " uploaded successfully") := by
  rw [POST_valid_eq cwd ⟨some b1, i1, t1, f⟩ b1 rfl hv1,
    POST_valid_eq cwd ⟨some b2, i2, t2, f⟩ b2 rfl hv2]
  exact ⟨rfl, rfl⟩

/-- Witness for the amended C7. -/
theorem post_never_rejects_conflicting_totalChunks_witness :
    (POST [] ⟨some [1], "0", "3", "g"⟩ true).response
      = .ok true ("Chunk " ++ "0" ++ " of " ++ "3" ++ " uploaded successfully")
    ∧ (POST [] ⟨some [2], "1", "5", "g"⟩ true).response
      = .ok true ("Chunk " ++ "1" ++ " of " ++ "5" ++ " uploaded successfully") :=
  post_never_rejects_conflicting_totalChunks [] "g" "0" "1" "3" "5" [1] [2]
    (by decide) (by decide) (by decide)

/-- C8 counterexample: for a concrete valid request the handler's
operation list is exactly a directory creation followed by a direct write
of the bytes at the final chunk path — it contains no rename, so no
write-to-temporary-then-rename step exists. -/
theorem chunk_write_has_no_rename :
    (POST ["srv"] ⟨some [1, 2], "0", "1", "f"⟩ true).fsOps
      = [.mkdir (uploadDir ["srv"] "f"),
         .writeFile (chunkPath ["srv"] "f" "0") [1, 2]]
    ∧ ((POST ["srv"] ⟨some [1, 2], "0", "1", "f"⟩ true).fsOps.all
        (fun op => !op.isRename)) = true := by
  exact ⟨rfl, rfl⟩

/-- C8 amended: every chunk write, overwrites included, is one direct
`fs.writeFile` at the final chunk path; the handler performs no write to a
temporary path and no rename. -/
theorem chunk_write_direct (cwd : List String) (req : ChunkRequest) (b : Bytes)
    (hb : req.file = some b) (hv : validRequest req) :
    (POST cwd req true).fsOps
      = [.mkdir (uploadDir cwd req.filename),
         .writeFile (chunkPath cwd req.filename req.chunkIndex) b]
    ∧ ((POST cwd req true).fsOps.all (fun op => !op.isRename)) = true := by
  rw [POST_valid_eq cwd req b hb hv]
  exact ⟨rfl, rfl⟩

/-- Witness for the amended C8. -/
theorem chunk_write_direct_witness :
    (POST [] ⟨some [9], "2", "4", "h"⟩ true).fsOps
      = [.mkdir (uploadDir [] "h"), .writeFile (chunkPath [] "h" "2") [9]]
    ∧ ((POST [] ⟨some [9], "2", "4", "h"⟩ true).fsOps.all
        (fun op => !op.isRename)) = true :=
  chunk_write_direct [] ⟨some [9], "2", "4", "h"⟩ [9] rfl (by decide)

/-- C5 counterexample: the server accepts two chunks of 1 GiB each for one
upload — each request succeeds, and the sum of the accepted chunk sizes is
2 GiB, exceeding the 1 GiB ceiling: there is no server-side size check. -/
theorem server_accepts_chunks_beyond_ceiling :
    (POST [] ⟨some (List.replicate MAX_FILE_SIZE 0), "0", "2", "f"⟩
        true).response.status = 200
    ∧ (POST [] ⟨some (List.replicate MAX_FILE_SIZE 0), "1", "2", "f"⟩
        true).response.status = 200
    ∧ (List.replicate MAX_FILE_SIZE (0 : Nat)).length
        + (List.replicate MAX_FILE_SIZE (0 : Nat)).length > MAX_FILE_SIZE := by
  refine ⟨rfl, rfl, ?_⟩
  simp only [List.length_replicate]
  have h : 0 < MAX_FILE_SIZE := by norm_num [MAX_FILE_SIZE]
  omega

/-- C5 amended: the 1 GiB ceiling is enforced client-side only — `onDrop`
rejects any selected file larger than `MAX_FILE_SIZE` before uploading —
while the server's chunk handler performs no size check: it accepts any
valid request whatever the size of its chunk payload. -/
theorem ceiling_enforced_client_side_only :
    (∀ size : Nat, size > MAX_FILE_SIZE → onDrop size = none)
    ∧ (∀ (cwd : List String) (req : ChunkRequest) (b : Bytes),
        req.file = some b → validRequest req →
        (POST cwd req true).response.status = 200) := by
  constructor
  · intro size h
    simp [onDrop, h]
  · intro cwd req b hb hv
    rw [POST_valid_eq cwd req b hb hv]
    rfl

/-- Witness for the amended C5: a file one byte over the ceiling is
rejected client-side; a valid chunk request is accepted server-side. -/
theorem ceiling_enforced_client_side_only_witness :
    onDrop (MAX_FILE_SIZE + 1) = none
    ∧ (POST [] ⟨some [3], "0", "1", "w"⟩ true).response.status = 200 :=
  ⟨ceiling_enforced_client_side_only.1 (MAX_FILE_SIZE + 1)
      (Nat.lt_succ_self MAX_FILE_SIZE),
   ceiling_enforced_client_side_only.2 [] ⟨some [3], "0", "1", "w"⟩ [3]
      rfl (by decide)⟩

lemma filter_ne_key_idem (fs : FileSystem) (q : List String) :
    (fs.filter (fun e => e.1 ≠ q)).filter (fun e => e.1 ≠ q)
      = fs.filter (fun e => e.1 ≠ q) := by
  induction fs with
  | nil => rfl
  | cons e rest ih =>
    by_cases h : e.1 = q
    · simp [List.filter_cons, h, ih]
    · simp [List.filter_cons, h, ih]

/-- C3: writing a chunk twice for the same upload identifier and the same
declared chunk index, with possibly different bytes, follows a single
last-write-wins policy: `fs.writeFile` overwrites the one chunk file, so
after both requests the stored bytes at the chunk path are those of the
second write and the number of stored files is unchanged by the second
write. -/
theorem chunk_overwrite_last_write_wins
    (cwd : List String) (fs0 : FileSystem) (req : ChunkRequest)
    (b1 b2 : Bytes) (hb : req.file = some b1) (hv : validRequest req) :
    fsLookup
        (applyOps (applyOps fs0 (POST cwd req true).fsOps)
          (POST cwd { req with file := some b2 } true).fsOps)
        (chunkPath cwd req.filename req.chunkIndex) = some b2
    ∧ (applyOps (applyOps fs0 (POST cwd req true).fsOps)
          (POST cwd { req with file := some b2 } true).fsOps).length
      = (applyOps fs0 (POST cwd req true).fsOps).length := by
  have hv2 : validRequest { req with file := some b2 } := hv
  rw [POST_valid_eq cwd req b1 hb hv,
    POST_valid_eq cwd { req with file := some b2 } b2 rfl hv2]
  simp only [applyOps, List.foldl_cons, List.foldl_nil, applyOp]
  constructor
  · simp [fsLookup]
  · simp only [List.filter_cons, decide_not]
    simp [filter_ne_key_idem]

/-- Witness for C3: the same chunk written twice with different bytes ends
with the second bytes stored and one file. -/
theorem chunk_overwrite_last_write_wins_witness :
    fsLookup
        (applyOps
          (applyOps [] (POST [] ⟨some [1], "0", "2", "f"⟩ true).fsOps)
          (POST [] ⟨some [5, 6], "0", "2", "f"⟩ true).fsOps)
        (chunkPath [] "f" "0") = some [5, 6]
    ∧ (applyOps
          (applyOps [] (POST [] ⟨some [1], "0", "2", "f"⟩ true).fsOps)
          (POST [] ⟨some [5, 6], "0", "2", "f"⟩ true).fsOps).length
      = (applyOps [] (POST [] ⟨some [1], "0", "2", "f"⟩ true).fsOps).length :=
  chunk_overwrite_last_write_wins [] [] ⟨some [1], "0", "2", "f"⟩ [1] [5, 6]
    rfl (by decide)

/-- C4 counterexample: chunk indices 2 < 10, yet the file name of chunk 10
(`chunk-10`) sorts strictly before the file name of chunk 2 (`chunk-2`),
so the names do not sort correctly by index. -/
theorem chunk_names_not_sorted_by_index :
    (2 : Nat) < 10
    ∧ (chunkFileName (Nat.repr 10)).data < (chunkFileName (Nat.repr 2)).data := by
  constructor
  · decide
  · decide

/-- C4 amended: chunks are stored as one directory per upload identifier
(the directory depends only on the identifier) containing one file per
chunk-index string — the name `chunk-` + index determines the index string
uniquely — but the names sort lexicographically, which does not order them
by numeric index across different digit counts. -/
theorem chunk_layout_one_file_per_index :
    (∀ a b : String, chunkFileName a = chunkFileName b → a = b)
    ∧ (∀ (cwd : List String) (req : ChunkRequest) (b : Bytes),
        req.file = some b → validRequest req →
        (POST cwd req true).fsOps
          = [.mkdir (uploadDir cwd req.filename),
             .writeFile
               (joinPath (uploadDir cwd req.filename)
                 (chunkFileName req.chunkIndex)) b]) := by
  constructor
  · intro a b h
    have h2 : "chunk-".data ++ a.data = "chunk-".data ++ b.data := by
      have := congrArg String.data h
      simpa [chunkFileName] using this
    exact String.ext (List.append_cancel_left h2)
  · intro cwd req b hb hv
    rw [POST_valid_eq cwd req b hb hv]
    rfl

/-- Witness for the amended C4. -/
theorem chunk_layout_one_file_per_index_witness :
    ("7" : String) = "7"
    ∧ (POST [] ⟨some [4], "7", "9", "f"⟩ true).fsOps
        = [.mkdir (uploadDir [] "f"),
           .writeFile (joinPath (uploadDir [] "f") (chunkFileName "7")) [4]] :=
  ⟨chunk_layout_one_file_per_index.1 "7" "7" rfl,
   chunk_layout_one_file_per_index.2 [] ⟨some [4], "7", "9", "f"⟩ [4]
     rfl (by decide)⟩
